import Mathlib

/-!
Verification of the natural-language specification of the aiAgentBackend
repository against a shallow embedding of its core: the reason → action →
observe → visualize agent pipeline (src/agents/sql_agent_gemini.py,
src/agents/sql_agent.py), the SQL extractor, the result formatter, the
chart-worthiness heuristic, and the database server's query execution
(src/mcp/database_server.py).

Python text values are modelled as `List Char`; Python dictionaries carrying
result rows as association lists; the dynamically typed `execution_result`
value as an inductive covering the shapes the code dispatches on.  The
language model and the SQLite store are opaque capabilities, exactly as the
specification scopes them.
-/

namespace SqlAgent

/-- Text is modelled as a list of characters. -/
abbrev Str := List Char

/-- Characters removed by Python `str.strip()` with no argument: space, tab,
newline, carriage return, vertical tab, form feed. -/
def pyWs (c : Char) : Bool :=
  c == ' ' || c == '\t' || c == '\n' || c == '\r' || c == '\x0b' || c == '\x0c'

/-- Remove trailing characters satisfying `p` (the right half of Python
`str.strip`). -/
def dropRightWhile (p : Char → Bool) (s : Str) : Str :=
  (s.reverse.dropWhile p).reverse

/-- Python `str.strip()`: remove leading and trailing whitespace. -/
def pyStrip (s : Str) : Str :=
  dropRightWhile pyWs (s.dropWhile pyWs)

/-- The backtick character. -/
def bq : Char := Char.ofNat 96

/-- The fenced-code-block marker, three backticks. -/
def fence : Str := [bq, bq, bq]

/-- The characters of the word sql. -/
def sqlWord : Str := ['s', 'q', 'l']

/-- The SQL-tagged opening fence, three backticks followed by sql. -/
def sqlTag : Str := fence ++ sqlWord

/-- The startswith-sql-tagged-fence reassignment of `_extract_sql_query`:
`if sql_query.startswith(sql-tagged fence): sql_query = sql_query[6:]`.
Python `s[6:]` is `List.drop 6`. -/
def dropSqlTagPre (s : Str) : Str :=
  if sqlTag <+: s then s.drop 6 else s

/-- One endswith-fence reassignment of `_extract_sql_query`:
`if sql_query.endswith(fence): sql_query = sql_query[:-3]`; the identical
source line occurs twice.  Python `s[:-3]` is `List.take (s.length - 3)`
(truncated subtraction, matching Python slicing for short strings). -/
def dropFenceSuf (s : Str) : Str :=
  if fence <:+ s then s.take (s.length - 3) else s

/-- The startswith-generic-fence reassignment of `_extract_sql_query`:
`if sql_query.startswith(fence): sql_query = sql_query[3:]`. -/
def dropFencePre (s : Str) : Str :=
  if fence <+: s then s.drop 3 else s

/-- Embeds `_extract_sql_query` from src/agents/sql_agent.py (lines 328-345)
and src/agents/sql_agent_gemini.py (lines 285-302); the two copies are
textually identical.  The body is an initial strip followed by the four
successive conditional reassignments of the `sql_query` variable in source
order, then a final strip. -/
def extractSqlQuery (llmResponse : Str) : Str :=
  pyStrip (dropFenceSuf (dropFencePre (dropFenceSuf (dropSqlTagPre (pyStrip llmResponse)))))

/-- Whether `p` occurs as a contiguous block inside `s` (used to state the
absence of fence markers in a text). -/
def occursIn (p : Str) : Str → Bool
  | [] => p.isEmpty
  | c :: rest => p.isPrefixOf (c :: rest) || occursIn p rest

/-- A cell value of a result row.  Python `bool` is a subclass of `int`, so
`vbool` counts as numeric for `isinstance(value, (int, float))`.  A float is
carried with its textual representation kept opaque: the code never computes
with float values, it only type-tests and prints them. -/
inductive CellVal where
  | vint (n : Int)
  | vfloat (text : Str)
  | vbool (b : Bool)
  | vstr (s : Str)
  | vnone
deriving DecidableEq

/-- Python `isinstance(value, (int, float))`: true for int, float and bool. -/
def CellVal.isNumeric : CellVal → Bool
  | .vint _ => true
  | .vfloat _ => true
  | .vbool _ => true
  | _ => false

/-- Python `isinstance(value, str)`. -/
def CellVal.isText : CellVal → Bool
  | .vstr _ => true
  | _ => false

/-- A column name. -/
abbrev Key := Str

/-- A result row: a Python dict rendered as an ordered association list. -/
abbrev Row := List (Key × CellVal)

/-- The value of the data key of a success result: either a dict containing
a rows key, or any other value carried by its serialized text. -/
inductive ResData where
  | rows (rs : List Row)
  | other (dump : Str)
deriving DecidableEq

/-- The dynamically typed `execution_result` value threaded through the
pipeline, covering the shapes the code dispatches on:
* `pynone` — Python `None` (the initial state) or any other falsy value;
* `error msg sql` — the dict built in the action stage's except branch,
  with keys type=error, error=msg, sql=sql;
* `success rowCount data` — a dict whose success key is truthy, carrying
  its row_count and data entries (each read with `.get` and a default);
* `other isDict dump` — any other truthy value; `isDict` records whether it
  is a Python dict and `dump` its `json.dumps` rendering. -/
inductive ExecResult where
  | pynone
  | error (msg sql : Str)
  | success (rowCount : Nat) (data : ResData)
  | other (isDict : Bool) (dump : Str)
deriving DecidableEq

/-- The identifier column name excluded by the chart heuristic: the Python
list literal in `key not in ['id']` holds exactly the string id. -/
def idKey : Key := ['i', 'd']

/-- The numeric-field scan of `_should_generate_chart`
(src/agents/sql_agent_gemini.py lines 362-365): keys of the first row whose
value passes `isinstance(value, (int, float))` and is not the id column. -/
def numericChartFields (r : Row) : List Key :=
  (r.filter fun kv => kv.2.isNumeric && !(kv.1 == idKey)).map Prod.fst

/-- Embeds `_should_generate_chart` (src/agents/sql_agent_gemini.py lines
342-369).  Falsy and error-tagged results are rejected; a success result
needs `row_count >= 2`, a data dict with a nonempty rows list, and at least
one numeric non-id field in the first row (`len(numeric_fields) > 0`). -/
def shouldGenerateChart : ExecResult → Bool
  | .pynone => false
  | .error _ _ => false
  | .other _ _ => false
  | .success rowCount data =>
    if 2 ≤ rowCount then
      match data with
      | .rows [] => false
      | .rows (firstRow :: _) => !(numericChartFields firstRow).isEmpty
      | .other _ => false
    else false

/-- The numeric-field classification loop of `_prepare_chart_data`
(src/agents/sql_agent_gemini.py lines 389-393). -/
def prepareNumericFields (r : Row) : List Key :=
  (r.filter fun kv => kv.2.isNumeric && !(kv.1 == idKey)).map Prod.fst

/-- The text-field classification of the same loop (lines 394-395): string
values under a non-id key; a key failing the numeric branch falls into this
elif only if its value is a str. -/
def prepareTextFields (r : Row) : List Key :=
  (r.filter fun kv => kv.2.isText && !(kv.1 == idKey)).map Prod.fst

/-- Python `str(v)` as it appears in the f-string `f"(k): (v)"` renderings. -/
def CellVal.toText : CellVal → Str
  | .vint n => (toString n).toList
  | .vfloat t => t
  | .vbool b => if b then "True".toList else "False".toList
  | .vstr s => s
  | .vnone => "None".toList

/-- One row rendered as comma-joined `column: value` pairs
(`", ".join([f"(k): (v)" for k, v in row.items()])`). -/
def rowText (r : Row) : Str :=
  List.intercalate (", ".toList) (r.map fun kv => kv.1 ++ ": ".toList ++ kv.2.toText)

/-- Decimal rendering of a natural number. -/
def natText (n : Nat) : Str := (toString n).toList

/-- JSON rendering of a cell value, modelling Python `json.dumps` on the
value shapes that occur (ints, floats, strings, booleans, None). -/
def CellVal.toJson : CellVal → Str
  | .vint n => (toString n).toList
  | .vfloat t => t
  | .vbool b => if b then "true".toList else "false".toList
  | .vstr s => '"' :: s ++ ['"']
  | .vnone => "null".toList

/-- Models `json.dumps(row, ensure_ascii=False, indent=2)` for a one-row
dict: opening brace, one indented key: value line per entry, closing brace. -/
def jsonDumpsRow (r : Row) : Str :=
  match r with
  | [] => "\x7b\x7d".toList
  | _ =>
    "\x7b\n".toList ++
      List.intercalate (",\n".toList)
        (r.map fun kv => "  ".toList ++ ('"' :: kv.1 ++ ['"']) ++ ": ".toList ++ kv.2.toJson) ++
      "\n\x7d".toList

/-- Embeds `_format_execution_result` (src/agents/sql_agent_gemini.py lines
304-340), branch for branch:
1. falsy result → 無查詢結果;
2. error dict  → 執行錯誤: followed by the error message only;
3. success with `row_count == 0` → the no-matching-rows text;
4. success whose data dict has a single row → header plus a JSON dump;
5. success with any other rows list → header with `len(rows)` plus numbered
   `i. k: v, ...` lines joined by newlines;
6. success without a rows list → header with `row_count` plus the dumped
   data; any other value → its own dump. -/
def formatExecutionResult : ExecResult → Str
  | .pynone => "無查詢結果".toList
  | .error msg _ => "執行錯誤: ".toList ++ msg
  | .success rowCount data =>
    if rowCount = 0 then "查詢成功，但沒有找到符合條件的資料".toList
    else
      match data with
      | .rows rows =>
        if rows.length = 1 then
          "查詢成功，找到 1 筆資料：\n".toList ++ jsonDumpsRow rows.headI
        else
          "查詢成功，找到 ".toList ++ natText rows.length ++ " 筆資料：\n".toList ++
            List.intercalate ("\n".toList)
              ((List.enumFrom 1 rows).map fun ir => natText ir.1 ++ ". ".toList ++ rowText ir.2)
      | .other dump =>
        "查詢成功，找到 ".toList ++ natText rowCount ++ " 筆資料：\n".toList ++ dump
  | .other _ dump => dump

/-- Embeds `_prepare_chart_data` (src/agents/sql_agent_gemini.py lines
371-416): reject falsy or non-dict values, reject data without a rows dict
(the error dict has no data key, so its data defaults to the empty dict),
reject an empty rows list, otherwise build the condensed summary: row and
column counts, numeric and text field lists (無 when empty), the first five
rows numbered, and a trailing omitted-rows note when more than five exist. -/
def prepareChartData : ExecResult → Str
  | .pynone => "無效的資料".toList
  | .other false _ => "無效的資料".toList
  | .error _ _ => "無資料行".toList
  | .other true _ => "無資料行".toList
  | .success _ data =>
    match data with
    | .other _ => "無資料行".toList
    | .rows [] => "空資料".toList
    | .rows (firstRow :: restRows) =>
      let rows := firstRow :: restRows
      let numeric := prepareNumericFields firstRow
      let text := prepareTextFields firstRow
      "\n資料摘要：\n- 總筆數: ".toList ++ natText rows.length ++
        "\n- 欄位數: ".toList ++ natText (firstRow.map Prod.fst).length ++
        "\n- 數值型欄位: ".toList ++
        (if numeric.isEmpty then "無".toList else List.intercalate (", ".toList) numeric) ++
        "\n- 文字型欄位: ".toList ++
        (if text.isEmpty then "無".toList else List.intercalate (", ".toList) text) ++
        "\n\n前 5 筆資料範例：\n".toList ++
        (List.flatten ((List.enumFrom 1 (rows.take 5)).map fun ir =>
          natText ir.1 ++ ". ".toList ++ rowText ir.2 ++ "\n".toList)) ++
        (if 5 < rows.length then
          "... 還有 ".toList ++ natText (rows.length - 5) ++ " 筆資料".toList
        else [])

/-- What one `cursor.execute(sql)` call observes from the SQLite store,
which the specification treats as an opaque SQL-execution capability:
the `cursor.description` column names, the `fetchall()` rows, and the
`cursor.rowcount` used for data-modifying statements. -/
structure CursorOutcome where
  columns : List Str
  rows : List Row
  rowcount : Int
deriving DecidableEq

/-- The result dict built by `_execute_query` in src/mcp/database_server.py:
either a select result (type=select, columns, rows, row_count) or a DML
result (type=dml, affected_rows, message). -/
inductive DbQueryResult where
  | select (columns : List Str) (rows : List Row) (row_count : Nat)
  | dml (affected_rows : Int) (message : Str)
deriving DecidableEq

/-- Python `str.upper()` restricted to the ASCII range, which is all the
leading-keyword check ever compares against. -/
def strUpper (s : Str) : Str := s.map Char.toUpper

/-- The read-query keyword SELECT. -/
def selectKw : Str := ['S', 'E', 'L', 'E', 'C', 'T']

/-- The classification `sql.strip().upper().startswith("SELECT")` of
src/mcp/database_server.py line 221. -/
def isSelectStmt (sql : Str) : Bool :=
  selectKw.isPrefixOf (strUpper (pyStrip sql))

/-- Embeds `_execute_query` (src/mcp/database_server.py lines 212-248).
`outcome` is what the opaque store does for this statement: `Except.error`
when `cursor.execute` raises (the message is re-raised with the SQL 執行錯誤
prefix), otherwise the cursor observation.  A statement classified as a read
query returns columns, rows and `row_count = len(rows)`; every other
statement returns the affected-row count and the fixed success message. -/
def dbExecuteQuery (outcome : Except Str CursorOutcome) (sql : Str) :
    Except Str DbQueryResult :=
  match outcome with
  | .error e => .error ("SQL 執行錯誤: ".toList ++ e)
  | .ok o =>
    if isSelectStmt sql then
      .ok (.select o.columns o.rows o.rows.length)
    else
      .ok (.dml o.rowcount ("查詢執行成功".toList))

/-- The shared mutable state threaded through the LangGraph workflow
(`AgentState` TypedDict, src/agents/sql_agent_gemini.py lines 78-85).  The
caller-supplied context mapping is opaque to the pipeline, so its type is a
parameter. -/
structure AgentState (γ : Type) where
  query : Str
  reasoning : Str
  sql_query : Str
  execution_result : ExecResult
  response : Str
  chart_description : Str
  context : γ
deriving DecidableEq

/-- The opaque capabilities the pipeline invokes, scoped exactly as the
specification's §1 and §6 prescribe: each language-model call is a function
from the state fields interpolated into its prompt to the returned text;
`schemaText` is the rendered schema injected into the reason and action
prompts; `gateway` is the MCP execute_query call, returning either the
server's JSON result or, via `Except.error`, the message of a raised
exception (connectivity failure or backend SQL error). -/
structure Caps (γ : Type) where
  llmReason : Str → Str → Str
  llmAction : Str → Str → Str → Str
  llmObserve : Str → Str → Str → Str → Str
  llmVisualize : Str → Str → Str
  schemaText : Str
  gateway : Str → Except Str ExecResult

/-- The reason stage (src/agents/sql_agent_gemini.py lines 88-120): invoke
the model on a prompt built from the query and the schema, store the
returned text as reasoning, keep every other field. -/
def reasonStage {γ : Type} (c : Caps γ) (st : AgentState γ) : AgentState γ :=
  { st with reasoning := c.llmReason st.query c.schemaText }

/-- The action stage (src/agents/sql_agent_gemini.py lines 123-170): invoke
the model, pass its output through the SQL extractor, call the gateway with
the extracted SQL; a raised exception is caught locally and converted into
the error dict carrying the message and the attempted SQL. -/
def actionStage {γ : Type} (c : Caps γ) (st : AgentState γ) : AgentState γ :=
  let sql := extractSqlQuery (c.llmAction st.query c.schemaText st.reasoning)
  let execRes :=
    match c.gateway sql with
    | .ok r => r
    | .error e => ExecResult.error e sql
  { st with sql_query := sql, execution_result := execRes }

/-- The observe stage (src/agents/sql_agent_gemini.py lines 173-209): format
the execution result, invoke the model on a prompt built from the query, the
reasoning, the SQL and the formatted result, store the output as response. -/
def observeStage {γ : Type} (c : Caps γ) (st : AgentState γ) : AgentState γ :=
  { st with
    response :=
      c.llmObserve st.query st.reasoning st.sql_query
        (formatExecutionResult st.execution_result) }

/-- The visualize stage (src/agents/sql_agent_gemini.py lines 212-265): when
the chart heuristic rejects the result, store the fixed 無需生成圖表 sentinel;
otherwise invoke the model on the prepared chart data. -/
def visualizeStage {γ : Type} (c : Caps γ) (st : AgentState γ) : AgentState γ :=
  if shouldGenerateChart st.execution_result then
    { st with
      chart_description :=
        c.llmVisualize st.query (prepareChartData st.execution_result) }
  else
    { st with chart_description := "無需生成圖表".toList }

/-- The compiled workflow (src/agents/sql_agent_gemini.py lines 267-283):
the straight line reason → action → observe → visualize → END. -/
def runPipeline {γ : Type} (c : Caps γ) (st : AgentState γ) : AgentState γ :=
  visualizeStage c (observeStage c (actionStage c (reasonStage c st)))

/-- The initial state built by `execute` (src/agents/sql_agent_gemini.py
lines 429-438): the query and context with every derived field empty. -/
def initState {γ : Type} (query : Str) (context : γ) : AgentState γ :=
  { query := query, reasoning := [], sql_query := [],
    execution_result := .pynone, response := [], chart_description := [],
    context := context }

/-- A concrete capability record for exercising the pipeline: the model
answers a fixed analysis, emits a fenced query against a missing table, and
echoes the formatted result; the gateway always raises a no-such-table
error, as in the specification's end-to-end scenario B. -/
def ghostCaps : Caps Unit :=
  { llmReason := fun _ _ => "analysis".toList
    llmAction := fun _ _ _ => "```sql\nSELECT * FROM ghosts\n```".toList
    llmObserve := fun _ _ _ formatted => formatted
    llmVisualize := fun _ chartData => chartData
    schemaText := "schema".toList
    gateway := fun _ => Except.error ("no such table: ghosts".toList) }

/-! ## Helper lemmas on the text model -/

theorem isPrefixOf_iff_exists : ∀ (p s : Str), p.isPrefixOf s = true ↔ ∃ t, s = p ++ t
  | [], s => by simp [List.isPrefixOf]
  | a :: p, [] => by simp [List.isPrefixOf]
  | a :: p, b :: s => by
    simp only [List.isPrefixOf, Bool.and_eq_true, beq_iff_eq]
    constructor
    · rintro ⟨rfl, h⟩
      obtain ⟨t, rfl⟩ := (isPrefixOf_iff_exists p s).1 h
      exact ⟨t, rfl⟩
    · rintro ⟨t, ht⟩
      injection ht with h1 h2
      subst h1
      exact ⟨rfl, (isPrefixOf_iff_exists p s).2 ⟨t, h2⟩⟩

theorem isSuffixOf_iff_exists (p s : Str) : p.isSuffixOf s = true ↔ ∃ t, s = t ++ p := by
  rw [List.isSuffixOf, isPrefixOf_iff_exists]
  constructor
  · rintro ⟨t, ht⟩
    refine ⟨t.reverse, ?_⟩
    have h2 := congrArg List.reverse ht
    simpa using h2
  · rintro ⟨t, rfl⟩
    exact ⟨t.reverse, by simp⟩

theorem occursIn_iff_exists : ∀ (p s : Str), occursIn p s = true ↔ ∃ u v, s = u ++ p ++ v
  | p, [] => by
    simp only [occursIn, List.isEmpty_iff]
    constructor
    · rintro rfl
      exact ⟨[], [], rfl⟩
    · rintro ⟨u, v, h⟩
      simp only [eq_comm, List.append_assoc, List.append_eq_nil] at h
      exact h.2.1
  | p, c :: rest => by
    simp only [occursIn, Bool.or_eq_true]
    rw [isPrefixOf_iff_exists, occursIn_iff_exists p rest]
    constructor
    · rintro (⟨t, ht⟩ | ⟨u, v, huv⟩)
      · exact ⟨[], t, by simp [ht]⟩
      · exact ⟨c :: u, v, by simp [huv]⟩
    · rintro ⟨u, v, huv⟩
      cases u with
      | nil => exact Or.inl ⟨v, by simpa using huv⟩
      | cons x u' =>
        simp only [List.cons_append] at huv
        injection huv with h1 h2
        exact Or.inr ⟨u', v, h2⟩

theorem not_pre_of_not_occurs {p s : Str} (h : occursIn p s = false) :
    p.isPrefixOf s = false := by
  by_contra hne
  have hp : p.isPrefixOf s = true := by
    cases hb : p.isPrefixOf s
    · exact absurd hb hne
    · rfl
  obtain ⟨t, rfl⟩ := (isPrefixOf_iff_exists p s).1 hp
  have : occursIn p (p ++ t) = true := (occursIn_iff_exists p _).2 ⟨[], t, by simp⟩
  rw [this] at h
  exact Bool.noConfusion h

theorem not_suf_of_not_occurs {p s : Str} (h : occursIn p s = false) :
    p.isSuffixOf s = false := by
  by_contra hne
  have hp : p.isSuffixOf s = true := by
    cases hb : p.isSuffixOf s
    · exact absurd hb hne
    · rfl
  obtain ⟨t, rfl⟩ := (isSuffixOf_iff_exists p s).1 hp
  have : occursIn p (t ++ p) = true := (occursIn_iff_exists p _).2 ⟨t, [], by simp⟩
  rw [this] at h
  exact Bool.noConfusion h

theorem occursIn_extend {p t : Str} (u v : Str) (h : occursIn p t = true) :
    occursIn p (u ++ t ++ v) = true := by
  obtain ⟨a, b, rfl⟩ := (occursIn_iff_exists p t).1 h
  exact (occursIn_iff_exists p _).2 ⟨u ++ a, b ++ v, by simp⟩

theorem dropWhile_dropWhile (p : Char → Bool) (l : Str) :
    (l.dropWhile p).dropWhile p = l.dropWhile p := by
  induction l with
  | nil => rfl
  | cons a t ih =>
    by_cases h : p a
    · simp [List.dropWhile_cons, h, ih]
    · simp [List.dropWhile_cons, h]

theorem dropWhile_append_self {p : Char → Bool} :
    ∀ {u r : Str}, List.dropWhile p (u ++ r) = u ++ r → List.dropWhile p u = u := by
  intro u r h
  cases u with
  | nil => rfl
  | cons c u' =>
    by_cases hc : p c
    · exfalso
      rw [List.cons_append, List.dropWhile_cons, if_pos hc] at h
      have hle : (List.dropWhile p (u' ++ r)).length ≤ (u' ++ r).length :=
        List.Sublist.length_le (List.dropWhile_sublist p)
      rw [h] at hle
      simp at hle
    · simp [List.dropWhile_cons, hc]

/-- The strip of a text sits inside it: `s = u ++ pyStrip s ++ v`. -/
theorem pyStrip_split (s : Str) : ∃ u v, s = u ++ pyStrip s ++ v := by
  refine ⟨s.takeWhile pyWs, ((s.dropWhile pyWs).reverse.takeWhile pyWs).reverse, ?_⟩
  unfold pyStrip dropRightWhile
  have h1 : s.takeWhile pyWs ++ s.dropWhile pyWs = s := List.takeWhile_append_dropWhile pyWs s
  have h2 : ((s.dropWhile pyWs).reverse.dropWhile pyWs).reverse ++
      ((s.dropWhile pyWs).reverse.takeWhile pyWs).reverse = s.dropWhile pyWs := by
    have h3 := List.takeWhile_append_dropWhile pyWs (s.dropWhile pyWs).reverse
    have h4 := congrArg List.reverse h3
    rw [List.reverse_append, List.reverse_reverse] at h4
    exact h4
  rw [List.append_assoc, h2, h1]

theorem occursIn_pyStrip {p s : Str} (h : occursIn p s = false) :
    occursIn p (pyStrip s) = false := by
  cases hb : occursIn p (pyStrip s) with
  | false => rfl
  | true =>
    exfalso
    obtain ⟨u, v, hs⟩ := pyStrip_split s
    have : occursIn p s = true := by
      rw [hs]
      exact occursIn_extend u v hb
    rw [this] at h
    exact Bool.noConfusion h

theorem pyStrip_idem (s : Str) : pyStrip (pyStrip s) = pyStrip s := by
  unfold pyStrip dropRightWhile
  set a := s.dropWhile pyWs with ha_def
  have ha : a.dropWhile pyWs = a := dropWhile_dropWhile pyWs s
  set b := (a.reverse.dropWhile pyWs).reverse with hb_def
  have hsplit : b ++ (a.reverse.takeWhile pyWs).reverse = a := by
    have h3 := List.takeWhile_append_dropWhile pyWs a.reverse
    have h4 := congrArg List.reverse h3
    rw [List.reverse_append, List.reverse_reverse] at h4
    exact h4
  have hb1 : b.dropWhile pyWs = b := by
    apply dropWhile_append_self
    rw [hsplit]
    exact ha
  rw [hb1]
  have hb2 : b.reverse.dropWhile pyWs = b.reverse := by
    simp only [hb_def, List.reverse_reverse]
    exact dropWhile_dropWhile pyWs a.reverse
  rw [hb2]
  simp [hb_def]

theorem pyStrip_sandwich {a b : Char} (ha : pyWs a = false) (hb : pyWs b = false)
    (s : Str) : pyStrip (a :: (s ++ [b])) = a :: (s ++ [b]) := by
  unfold pyStrip dropRightWhile
  rw [List.dropWhile_cons, if_neg (by simp [ha])]
  have hrev : (a :: (s ++ [b])).reverse = b :: (s.reverse ++ [a]) := by simp
  rw [hrev, List.dropWhile_cons, if_neg (by simp [hb]), ← hrev, List.reverse_reverse]

/-- If the word sql starts `m ++ fence` then it already starts `m`: the
fence's backticks cannot supply any of the letters s, q, l. -/

theorem not_pre_prop {p s : Str} (h : occursIn p s = false) : ¬ p <+: s := by
  rintro ⟨t, rfl⟩
  have htrue : occursIn p (p ++ t) = true := (occursIn_iff_exists p _).2 ⟨[], t, by simp⟩
  rw [htrue] at h
  exact Bool.noConfusion h

theorem not_suf_prop {p s : Str} (h : occursIn p s = false) : ¬ p <:+ s := by
  rintro ⟨t, rfl⟩
  have htrue : occursIn p (t ++ p) = true := (occursIn_iff_exists p _).2 ⟨t, [], by simp⟩
  rw [htrue] at h
  exact Bool.noConfusion h

/-- If the word sql starts `m ++ fence` then it already starts `m`: the
fence's backticks cannot supply any of the letters s, q, l. -/
theorem sqlWord_pre_append {m : Str} (h : sqlWord <+: m ++ fence) :
    sqlWord <+: m := by
  obtain ⟨t, ht⟩ := h
  rcases m with _ | ⟨a, _ | ⟨b, _ | ⟨c, rest⟩⟩⟩
  · simp only [sqlWord, fence, List.cons_append, List.nil_append] at ht
    injection ht with h1 _
    exact absurd h1 (by decide)
  · simp only [sqlWord, fence, List.cons_append, List.nil_append] at ht
    injection ht with h1 ht2
    injection ht2 with h2 _
    exact absurd h2 (by decide)
  · simp only [sqlWord, fence, List.cons_append, List.nil_append] at ht
    injection ht with h1 ht2
    injection ht2 with h2 ht3
    injection ht3 with h3 _
    exact absurd h3 (by decide)
  · simp only [sqlWord, List.cons_append] at ht
    injection ht with h1 ht2
    injection ht2 with h2 ht3
    injection ht3 with h3 _
    subst h1
    subst h2
    subst h3
    exact ⟨rest, rfl⟩

/-- A text starting with the SQL-tagged fence starts with the bare fence. -/
theorem fence_pre_of_sqlTag_pre {s : Str} (h : sqlTag <+: s) : fence <+: s := by
  obtain ⟨t, ht⟩ := h
  exact ⟨sqlWord ++ t, by rw [← ht]; simp [sqlTag]⟩

/-- On a text containing no fence marker, the extractor is the strip. -/
theorem extract_eq_pyStrip_of_nofence {y : Str} (h : occursIn fence y = false) :
    extractSqlQuery y = pyStrip y := by
  have hsP : occursIn fence (pyStrip y) = false := occursIn_pyStrip h
  have e1 : dropSqlTagPre (pyStrip y) = pyStrip y := by
    unfold dropSqlTagPre
    rw [if_neg (fun hp => not_pre_prop hsP (fence_pre_of_sqlTag_pre hp))]
  have e2 : dropFenceSuf (pyStrip y) = pyStrip y := by
    unfold dropFenceSuf
    rw [if_neg (not_suf_prop hsP)]
  have e3 : dropFencePre (pyStrip y) = pyStrip y := by
    unfold dropFencePre
    rw [if_neg (not_pre_prop hsP)]
  unfold extractSqlQuery
  rw [e1, e2, e3, e2, pyStrip_idem]

/-- Unwrapping a SQL-tagged fenced block. -/
theorem extract_sql_tagged {m : Str} (hm : occursIn fence m = false) :
    extractSqlQuery (sqlTag ++ m ++ fence) = pyStrip m := by
  have hfix : pyStrip (sqlTag ++ m ++ fence) = sqlTag ++ m ++ fence := by
    have hshape : sqlTag ++ m ++ fence =
        bq :: (([bq, bq, 's', 'q', 'l'] ++ m ++ [bq, bq]) ++ [bq]) := by
      simp [sqlTag, fence, sqlWord]
    rw [hshape]
    exact pyStrip_sandwich (by decide) (by decide) _
  have e1 : dropSqlTagPre (sqlTag ++ m ++ fence) = m ++ fence := by
    unfold dropSqlTagPre
    rw [if_pos ⟨m ++ fence, rfl⟩]
    have h6 : (6 : Nat) = sqlTag.length := rfl
    rw [h6]
    exact List.drop_left _ _
  have e2 : dropFenceSuf (m ++ fence) = m := by
    unfold dropFenceSuf
    rw [if_pos ⟨m, rfl⟩]
    have hl : (m ++ fence).length - 3 = m.length := by simp [fence]
    rw [hl]
    exact List.take_left _ _
  have e3 : dropFencePre m = m := by
    unfold dropFencePre
    rw [if_neg (not_pre_prop hm)]
  have e4 : dropFenceSuf m = m := by
    unfold dropFenceSuf
    rw [if_neg (not_suf_prop hm)]
  unfold extractSqlQuery
  rw [hfix, e1, e2, e3, e4]

/-- Unwrapping a generic fenced block whose content does not start with the
letters sql. -/
theorem extract_generic_fenced {m : Str} (hm : occursIn fence m = false)
    (hsql : ¬ sqlWord <+: m) :
    extractSqlQuery (fence ++ m ++ fence) = pyStrip m := by
  have hfix : pyStrip (fence ++ m ++ fence) = fence ++ m ++ fence := by
    have hshape : fence ++ m ++ fence =
        bq :: (([bq, bq] ++ m ++ [bq, bq]) ++ [bq]) := by
      simp [fence]
    rw [hshape]
    exact pyStrip_sandwich (by decide) (by decide) _
  have h1 : ¬ sqlTag <+: fence ++ m ++ fence := by
    rintro ⟨t, ht⟩
    have ht2 : fence ++ (sqlWord ++ t) = fence ++ (m ++ fence) := by
      rw [← List.append_assoc, ← List.append_assoc]
      exact ht
    have ht3 : sqlWord ++ t = m ++ fence := List.append_cancel_left ht2
    exact hsql (sqlWord_pre_append ⟨t, ht3⟩)
  have e1 : dropSqlTagPre (fence ++ m ++ fence) = fence ++ m ++ fence := by
    unfold dropSqlTagPre
    rw [if_neg h1]
  have e2 : dropFenceSuf (fence ++ m ++ fence) = fence ++ m := by
    unfold dropFenceSuf
    rw [if_pos ⟨fence ++ m, by simp⟩]
    have hl : (fence ++ m ++ fence).length - 3 = (fence ++ m).length := by
      simp [fence]
    rw [hl]
    exact List.take_left _ _
  have e3 : dropFencePre (fence ++ m) = m := by
    unfold dropFencePre
    rw [if_pos ⟨m, rfl⟩]
    have h3 : (3 : Nat) = fence.length := rfl
    rw [h3]
    exact List.drop_left _ _
  have e4 : dropFenceSuf m = m := by
    unfold dropFenceSuf
    rw [if_neg (not_suf_prop hm)]
  unfold extractSqlQuery
  rw [hfix, e1, e2, e3, e4]

/-! ## Claims -/

/-- C4: for every text input consisting of a SQL statement wrapped in a
sql-tagged fenced code block or in a generic fenced code block, extract
returns the inner content with leading and trailing whitespace removed and
with no fence markers remaining in the output.  The inner statement contains
no fence marker and does not itself start with the letters sql (a SQL
statement starts with a SQL keyword). -/
theorem extract_unwraps_fenced_block (m : Str)
    (hm : occursIn fence m = false) (hsql : ¬ sqlWord <+: m) :
    extractSqlQuery (sqlTag ++ m ++ fence) = pyStrip m ∧
    extractSqlQuery (fence ++ m ++ fence) = pyStrip m ∧
    occursIn fence (pyStrip m) = false :=
  ⟨extract_sql_tagged hm, extract_generic_fenced hm hsql, occursIn_pyStrip hm⟩

theorem extract_unwraps_fenced_block_witness :
    extractSqlQuery (sqlTag ++ "\nSELECT * FROM users\n".toList ++ fence) =
      pyStrip ("\nSELECT * FROM users\n".toList) ∧
    extractSqlQuery (fence ++ "\nSELECT * FROM users\n".toList ++ fence) =
      pyStrip ("\nSELECT * FROM users\n".toList) ∧
    occursIn fence (pyStrip ("\nSELECT * FROM users\n".toList)) = false :=
  extract_unwraps_fenced_block ("\nSELECT * FROM users\n".toList)
    (by decide) (by decide)

/-- C5: for every text input containing no fence markers, extract returns
the whitespace-trimmed input unchanged, and extract is idempotent on such
inputs: extract (extract x) = extract x. -/
theorem extract_nofence_trim_idem (x : Str) (h : occursIn fence x = false) :
    extractSqlQuery x = pyStrip x ∧
    extractSqlQuery (extractSqlQuery x) = extractSqlQuery x := by
  have h1 := extract_eq_pyStrip_of_nofence h
  refine ⟨h1, ?_⟩
  have h2 : occursIn fence (pyStrip x) = false := occursIn_pyStrip h
  rw [h1, extract_eq_pyStrip_of_nofence h2, pyStrip_idem]

theorem extract_nofence_trim_idem_witness :
    extractSqlQuery ("  SELECT name, age FROM users  ".toList) =
      pyStrip ("  SELECT name, age FROM users  ".toList) ∧
    extractSqlQuery (extractSqlQuery ("  SELECT name, age FROM users  ".toList)) =
      extractSqlQuery ("  SELECT name, age FROM users  ".toList) :=
  extract_nofence_trim_idem ("  SELECT name, age FROM users  ".toList) (by decide)

/-- C9: extract strips a trailing closing fence even when the input does not
begin with any fence: whenever the trimmed input is some `u` followed by the
fence marker, with no fence starting the text and no second fence ending
`u`, the returned text is the trim of `u` -- the trailing-fence check is
applied unconditionally rather than only inside the leading-fence branch. -/
theorem extract_strips_trailing_fence (x u : Str)
    (hx : pyStrip x = u ++ fence)
    (hnp : ¬ fence <+: u ++ fence)
    (hns : ¬ fence <:+ u) :
    extractSqlQuery x = pyStrip u := by
  have h1 : ¬ sqlTag <+: u ++ fence := fun hp => hnp (fence_pre_of_sqlTag_pre hp)
  have h3 : ¬ fence <+: u := by
    intro hp
    obtain ⟨t, ht⟩ := hp
    exact hnp ⟨t ++ fence, by rw [← List.append_assoc, ht]⟩
  have e1 : dropSqlTagPre (u ++ fence) = u ++ fence := by
    unfold dropSqlTagPre
    rw [if_neg h1]
  have e2 : dropFenceSuf (u ++ fence) = u := by
    unfold dropFenceSuf
    rw [if_pos ⟨u, rfl⟩]
    have hl : (u ++ fence).length - 3 = u.length := by simp [fence]
    rw [hl]
    exact List.take_left _ _
  have e3 : dropFencePre u = u := by
    unfold dropFencePre
    rw [if_neg h3]
  have e4 : dropFenceSuf u = u := by
    unfold dropFenceSuf
    rw [if_neg hns]
  unfold extractSqlQuery
  rw [hx, e1, e2, e3, e4]

theorem extract_strips_trailing_fence_witness :
    extractSqlQuery ("SELECT 1\n```".toList) = "SELECT 1".toList := by
  have h := extract_strips_trailing_fence ("SELECT 1\n```".toList)
    ("SELECT 1\n".toList) (by decide) (by decide) (by decide)
  rw [h]
  decide

/-- C2: `should_chart` returns true if and only if the result is a success
whose row_count is at least 2 and whose data holds a nonempty rows list
whose first row has at least one numeric value under a non-identifier key;
in particular every result with row_count 1, every error-tagged result and
the empty result yield false. -/
theorem should_chart_iff :
    (∀ r : ExecResult, shouldGenerateChart r = true ↔
      ∃ rc firstRow rest,
        r = ExecResult.success rc (ResData.rows (firstRow :: rest)) ∧
          2 ≤ rc ∧ numericChartFields firstRow ≠ []) ∧
    (∀ d, shouldGenerateChart (ExecResult.success 1 d) = false) ∧
    (∀ msg sql, shouldGenerateChart (ExecResult.error msg sql) = false) ∧
    shouldGenerateChart ExecResult.pynone = false := by
  refine ⟨?_, ?_, ?_, ?_⟩
  · intro r
    cases r with
    | pynone =>
      constructor
      · intro h
        simp [shouldGenerateChart] at h
      · rintro ⟨rc, f, rest, heq, -, -⟩
        exact ExecResult.noConfusion heq
    | error msg sql =>
      constructor
      · intro h
        simp [shouldGenerateChart] at h
      · rintro ⟨rc, f, rest, heq, -, -⟩
        exact ExecResult.noConfusion heq
    | other d dump =>
      constructor
      · intro h
        simp [shouldGenerateChart] at h
      · rintro ⟨rc, f, rest, heq, -, -⟩
        exact ExecResult.noConfusion heq
    | success rc data =>
      cases data with
      | other dump =>
        constructor
        · intro h
          simp [shouldGenerateChart] at h
        · rintro ⟨rc2, f, rest, heq, -, -⟩
          injection heq with h1 h2
          exact ResData.noConfusion h2
      | rows rows =>
        cases rows with
        | nil =>
          constructor
          · intro h
            simp [shouldGenerateChart] at h
          · rintro ⟨rc2, f, rest, heq, -, -⟩
            injection heq with h1 h2
            injection h2 with h3
            exact List.noConfusion h3
        | cons f rest =>
          constructor
          · intro h
            simp only [shouldGenerateChart] at h
            by_cases h2 : 2 ≤ rc
            · rw [if_pos h2] at h
              refine ⟨rc, f, rest, rfl, h2, ?_⟩
              intro hnil
              rw [hnil] at h
              exact Bool.noConfusion h
            · rw [if_neg h2] at h
              exact Bool.noConfusion h
          · rintro ⟨rc2, f2, rest2, heq, hge, hne⟩
            injection heq with h1 h2
            injection h2 with h3
            injection h3 with h4 h5
            subst h1
            subst h4
            subst h5
            simp only [shouldGenerateChart]
            rw [if_pos hge]
            cases hcase : numericChartFields f with
            | nil => exact absurd hcase hne
            | cons a l => rfl
  · intro d
    simp [shouldGenerateChart]
  · intro msg sql
    simp [shouldGenerateChart]
  · simp [shouldGenerateChart]

/-- C3 counterexample: for the error result carrying the message no such
table: ghosts and the attempted statement SELECT * FROM ghosts, the
formatter output is the execution-error prefix followed by the message
only; the attempted SQL does not occur anywhere in the output, so the claim
that the output includes the attempted SQL fails at this input. -/
theorem format_error_omits_sql_cex :
    formatExecutionResult
        (ExecResult.error ("no such table: ghosts".toList)
          ("SELECT * FROM ghosts".toList)) =
      "執行錯誤: no such table: ghosts".toList ∧
    occursIn ("SELECT * FROM ghosts".toList)
        (formatExecutionResult
          (ExecResult.error ("no such table: ghosts".toList)
            ("SELECT * FROM ghosts".toList))) = false := by
  constructor
  · decide
  · decide

/-- C3 amended: for every error-tagged execution_result, the Result
Formatter output is the error message prefixed as an execution error; the
attempted SQL statement is not part of the output. -/
theorem format_error_prefixes_message (msg sql : Str) :
    formatExecutionResult (ExecResult.error msg sql) =
      "執行錯誤: ".toList ++ msg := rfl

/-- C6: for every SQL statement classified as a read query, the result
produced by execute_query satisfies row_count = len(rows): the reported
row count always equals the number of rows returned. -/
theorem select_row_count_eq_len (outcome : Except Str CursorOutcome)
    (sql : Str) (cols : List Str) (rows : List Row) (n : Nat)
    (h : dbExecuteQuery outcome sql =
      Except.ok (DbQueryResult.select cols rows n)) :
    n = rows.length := by
  cases outcome with
  | error e => simp [dbExecuteQuery] at h
  | ok o =>
    by_cases hs : isSelectStmt sql
    · have hok : dbExecuteQuery (Except.ok o) sql =
          Except.ok (DbQueryResult.select o.columns o.rows o.rows.length) := by
        simp [dbExecuteQuery, hs]
      rw [hok] at h
      have h2 := Except.ok.inj h
      injection h2 with hc hr hn
      rw [← hn, hr]
    · have hok : dbExecuteQuery (Except.ok o) sql =
          Except.ok (DbQueryResult.dml o.rowcount ("查詢執行成功".toList)) := by
        simp [dbExecuteQuery, hs]
      rw [hok] at h
      have h2 := Except.ok.inj h
      exact absurd h2 (by simp)

theorem select_row_count_eq_len_witness :
    (1 : Nat) = [[(idKey, CellVal.vint 1)]].length :=
  select_row_count_eq_len
    (Except.ok ⟨[idKey], [[(idKey, CellVal.vint 1)]], -1⟩)
    ("SELECT * FROM users".toList) [idKey] [[(idKey, CellVal.vint 1)]] 1 rfl

/-- C7: execute_query classifies every statement by its leading keyword
after trimming, case-insensitively: a statement whose trimmed uppercase
form begins with SELECT yields a select result with columns, rows and a row
count, and every other statement yields a DML result carrying only an
affected-row count; a lowercase select and an INSERT illustrate the two
sides. -/
theorem execute_query_classifies_by_keyword (o : CursorOutcome) (sql : Str) :
    dbExecuteQuery (Except.ok o) sql =
      Except.ok
        (if isSelectStmt sql then
          DbQueryResult.select o.columns o.rows o.rows.length
        else
          DbQueryResult.dml o.rowcount ("查詢執行成功".toList)) ∧
    isSelectStmt ("  select * from users  ".toList) = true ∧
    isSelectStmt ("INSERT INTO users (name) VALUES (1)".toList) = false := by
  refine ⟨?_, by decide, by decide⟩
  by_cases hs : isSelectStmt sql
  · simp [dbExecuteQuery, hs]
  · simp [dbExecuteQuery, hs]

/-- C10: the identifier exclusion in the chart heuristic is an exact-name
match on the single key id: every other key holding a numeric value
(including keys such as user_id and Python booleans, which are ints) is
counted as a numeric field by both should_chart's scan and prepare's
classification, while id is excluded from the numeric-field and text-field
lists alike. -/
theorem id_exclusion_exact_match (r : Row) (k : Key) (v : CellVal)
    (hmem : (k, v) ∈ r) (hnum : v.isNumeric = true) (hk : k ≠ idKey) :
    k ∈ numericChartFields r ∧ k ∈ prepareNumericFields r ∧
    idKey ∉ numericChartFields r ∧ idKey ∉ prepareNumericFields r ∧
    idKey ∉ prepareTextFields r := by
  have hmemf : ∀ p : Key × CellVal → Bool,
      p (k, v) = true → k ∈ (r.filter p).map Prod.fst := by
    intro p hp
    exact List.mem_map.2 ⟨(k, v), List.mem_filter.2 ⟨hmem, hp⟩, rfl⟩
  have hpred :
      (fun kv : Key × CellVal => kv.2.isNumeric && !(kv.1 == idKey)) (k, v) =
        true := by
    simp [hnum, hk]
  have hnil : ∀ q : CellVal → Bool,
      idKey ∉ (r.filter fun kv : Key × CellVal => q kv.2 && !(kv.1 == idKey)).map
        Prod.fst := by
    intro q hin
    obtain ⟨⟨k2, v2⟩, hf, hfst⟩ := List.mem_map.1 hin
    rw [List.mem_filter] at hf
    have hp2 := hf.2
    simp only [Bool.and_eq_true, Bool.not_eq_true', beq_eq_false_iff_ne] at hp2
    exact hp2.2 (by simpa using hfst)
  exact ⟨hmemf _ hpred, hmemf _ hpred, hnil _, hnil _, hnil _⟩

theorem id_exclusion_exact_match_witness :
    "user_id".toList ∈ numericChartFields
        [(idKey, CellVal.vint 7), ("user_id".toList, CellVal.vbool true)] ∧
    "user_id".toList ∈ prepareNumericFields
        [(idKey, CellVal.vint 7), ("user_id".toList, CellVal.vbool true)] ∧
    idKey ∉ numericChartFields
        [(idKey, CellVal.vint 7), ("user_id".toList, CellVal.vbool true)] ∧
    idKey ∉ prepareNumericFields
        [(idKey, CellVal.vint 7), ("user_id".toList, CellVal.vbool true)] ∧
    idKey ∉ prepareTextFields
        [(idKey, CellVal.vint 7), ("user_id".toList, CellVal.vbool true)] :=
  id_exclusion_exact_match
    [(idKey, CellVal.vint 7), ("user_id".toList, CellVal.vbool true)]
    ("user_id".toList) (CellVal.vbool true) (by decide) (by decide) (by decide)

/-- C1: in the action stage, every exception raised by the gateway's
execute_query call is caught locally and converted into an error-tagged
execution_result preserving the error message and the attempted SQL; the
pipeline then proceeds to the observe stage (the response is computed from
the formatted error result) and the invocation returns normally, producing
a final state rather than propagating the failure. -/
theorem action_stage_catches_gateway_error {γ : Type} (c : Caps γ)
    (st : AgentState γ) (e : Str)
    (h : c.gateway (extractSqlQuery (c.llmAction st.query c.schemaText
        (c.llmReason st.query c.schemaText))) = Except.error e) :
    (runPipeline c st).sql_query =
      extractSqlQuery (c.llmAction st.query c.schemaText
        (c.llmReason st.query c.schemaText)) ∧
    (runPipeline c st).execution_result =
      ExecResult.error e
        (extractSqlQuery (c.llmAction st.query c.schemaText
          (c.llmReason st.query c.schemaText))) ∧
    (runPipeline c st).response =
      c.llmObserve st.query (c.llmReason st.query c.schemaText)
        (extractSqlQuery (c.llmAction st.query c.schemaText
          (c.llmReason st.query c.schemaText)))
        (formatExecutionResult
          (ExecResult.error e
            (extractSqlQuery (c.llmAction st.query c.schemaText
              (c.llmReason st.query c.schemaText))))) := by
  unfold runPipeline visualizeStage observeStage actionStage reasonStage
  simp [h, shouldGenerateChart]

theorem action_stage_catches_gateway_error_witness :
    (runPipeline ghostCaps (initState ("list the ghosts".toList) ())).execution_result =
      ExecResult.error ("no such table: ghosts".toList)
        ("SELECT * FROM ghosts".toList) := by
  have h := action_stage_catches_gateway_error ghostCaps
    (initState ("list the ghosts".toList) ())
    ("no such table: ghosts".toList) rfl
  rw [h.2.1]
  decide

/-- C8: every pipeline stage mutates the state additively: the reason stage
changes only the reasoning field, the action stage only sql_query and
execution_result, the observe stage only response, and the visualize stage
only chart_description; in particular the query and the context survive the
whole pipeline unchanged. -/
theorem pipeline_additive_frame {γ : Type} (c : Caps γ) (st : AgentState γ) :
    ((reasonStage c st).query = st.query ∧
      (reasonStage c st).sql_query = st.sql_query ∧
      (reasonStage c st).execution_result = st.execution_result ∧
      (reasonStage c st).response = st.response ∧
      (reasonStage c st).chart_description = st.chart_description ∧
      (reasonStage c st).context = st.context) ∧
    ((actionStage c st).query = st.query ∧
      (actionStage c st).reasoning = st.reasoning ∧
      (actionStage c st).response = st.response ∧
      (actionStage c st).chart_description = st.chart_description ∧
      (actionStage c st).context = st.context) ∧
    ((observeStage c st).query = st.query ∧
      (observeStage c st).reasoning = st.reasoning ∧
      (observeStage c st).sql_query = st.sql_query ∧
      (observeStage c st).execution_result = st.execution_result ∧
      (observeStage c st).chart_description = st.chart_description ∧
      (observeStage c st).context = st.context) ∧
    ((visualizeStage c st).query = st.query ∧
      (visualizeStage c st).reasoning = st.reasoning ∧
      (visualizeStage c st).sql_query = st.sql_query ∧
      (visualizeStage c st).execution_result = st.execution_result ∧
      (visualizeStage c st).response = st.response ∧
      (visualizeStage c st).context = st.context) ∧
    (runPipeline c st).query = st.query ∧
    (runPipeline c st).context = st.context := by
  unfold runPipeline visualizeStage observeStage actionStage reasonStage
  refine ⟨⟨rfl, rfl, rfl, rfl, rfl, rfl⟩, ⟨rfl, rfl, rfl, rfl, rfl⟩,
    ⟨rfl, rfl, rfl, rfl, rfl, rfl⟩, ?_, ?_, ?_⟩
  · split
    · exact ⟨rfl, rfl, rfl, rfl, rfl, rfl⟩
    · exact ⟨rfl, rfl, rfl, rfl, rfl, rfl⟩
  · split
    · rfl
    · rfl
  · split
    · rfl
    · rfl

end SqlAgent
